import Mathlib

/-!
Verification of the configuration module of JavSP (src/core/config.py).

Python strings are modelled as `List Char`; Python exceptions as an
`Except PyErr` result.  The two regular expressions of the source
(`is_url` and the proxy pattern of `validate_proxy`) are modelled by a
small derivative-based matcher over character-class regular expressions,
with the pattern terms transcribed from the source text.  `\d` and `\S`
are modelled over their ASCII meaning (Python matches some further
Unicode code points there), and `str.lower` over its ASCII action.
-/

/-- Python `str.lower`, ASCII action: maps each of A..Z (codes 65..90)
to the corresponding lowercase letter and fixes every other character. -/
def lowerChar (c : Char) : Char :=
  if 65 ≤ c.toNat ∧ c.toNat ≤ 90 then Char.ofNat (c.toNat + 32) else c

/-- Python `str.lower` on a whole string. -/
def pyLower (s : List Char) : List Char := s.map lowerChar

/-- Python `str.split(sep)` for a one-character separator: splits at every
occurrence, keeps empty chunks, and yields `[""]` on the empty string. -/
def splitChar (sep : Char) : List Char → List (List Char)
  | [] => [[]]
  | c :: rest =>
    if c = sep then [] :: splitChar sep rest
    else
      match splitChar sep rest with
      | [] => [[c]]
      | w :: ws => (c :: w) :: ws

/-- Python `s.startswith('.')`. -/
def startsWithDot (s : List Char) : Bool :=
  match s with
  | '.' :: _ => true
  | _ => false

/-- Python `s.startswith(p)` for a general needle `p`. -/
def hasPfx : List Char → List Char → Bool
  | [], _ => true
  | _ :: _, [] => false
  | p :: ps, c :: cs => p = c && hasPfx ps cs

/-- The `media_ext` coercion of `norm_tuples`:
`items = cfg.File.media_ext.lower().split(';')`,
`exts = [i if i.startswith('.') else '.'+i for i in items]`. -/
def media_ext_exts (s : List Char) : List (List Char) :=
  (splitChar ';' (pyLower s)).map (fun i => if startsWithDot i then i else '.' :: i)

/-- Regular expressions over character classes.  `rep p lo hi` is the
counted repetition `p{lo,hi}` of a single character class (`hi = none`
for an unbounded repetition); composite groups use `seq`/`alt`/`star`. -/
inductive RE where
  | fail : RE
  | eps : RE
  | cls : (Char → Bool) → RE
  | rep : (Char → Bool) → Nat → Option Nat → RE
  | seq : RE → RE → RE
  | alt : RE → RE → RE
  | star : RE → RE

def RE.nullable : RE → Bool
  | .fail => false
  | .eps => true
  | .cls _ => false
  | .rep _ lo _ => lo = 0
  | .seq a b => a.nullable && b.nullable
  | .alt a b => a.nullable || b.nullable
  | .star _ => true

/-- Alternation, pruning the empty language. -/
def RE.mkAlt : RE → RE → RE
  | .fail, b => b
  | a, .fail => a
  | a, b => .alt a b

/-- Concatenation, pruning the empty language and the empty word. -/
def RE.mkSeq : RE → RE → RE
  | .fail, _ => .fail
  | _, .fail => .fail
  | .eps, b => b
  | a, .eps => a
  | a, b => .seq a b

/-- Brzozowski derivative by the character `c`. -/
def RE.deriv (c : Char) : RE → RE
  | .fail => .fail
  | .eps => .fail
  | .cls p => if p c then .eps else .fail
  | .rep p lo hi =>
    match hi with
    | some 0 => .fail
    | some (h + 1) => if p c then .rep p (lo - 1) (some h) else .fail
    | none => if p c then .rep p (lo - 1) none else .fail
  | .seq a b =>
    if a.nullable then RE.mkAlt (RE.mkSeq (a.deriv c) b) (b.deriv c)
    else RE.mkSeq (a.deriv c) b
  | .alt a b => RE.mkAlt (a.deriv c) (b.deriv c)
  | .star a => RE.mkSeq (a.deriv c) (.star a)

/-- Whole-string matching by iterated derivatives. -/
def reMatch (r : RE) (s : List Char) : Bool :=
  (s.foldl (fun r c => r.deriv c) r).nullable

/-- `re.match` against a pattern of the form `^...$`: Python's `$`
matches at the end of the string or just before a final newline. -/
def reMatchDollar (r : RE) (s : List Char) : Bool :=
  reMatch r s ||
    (match s.getLast? with
     | some c => if c = '\n' then reMatch r s.dropLast else false
     | none => false)

/-- A literal pattern character (case-sensitive). -/
def reChar (a : Char) : RE := .cls (fun c => c = a)

/-- A literal pattern character under `re.IGNORECASE` (given lowercase). -/
def reCharCI (a : Char) : RE := .cls (fun c => lowerChar c = a)

def reStr (s : List Char) : RE := s.foldr (fun a r => RE.seq (reChar a) r) .eps

def reStrCI (s : List Char) : RE := s.foldr (fun a r => RE.seq (reCharCI a) r) .eps

/-- `\d` (ASCII digits `0..9`). -/
def isDigitC (c : Char) : Bool := 48 ≤ c.toNat && c.toNat ≤ 57

/-- `[A-Z]` under `re.IGNORECASE`. -/
def isAlphaCI (c : Char) : Bool := 97 ≤ (lowerChar c).toNat && (lowerChar c).toNat ≤ 122

/-- `[A-Z0-9]` under `re.IGNORECASE`. -/
def isAlnumCI (c : Char) : Bool := isAlphaCI c || isDigitC c

/-- `[A-Z0-9-]` under `re.IGNORECASE`. -/
def isAlnumDashCI (c : Char) : Bool := isAlnumCI c || c = '-'

/-- `\S`: anything but Python's whitespace characters (ASCII part). -/
def isNonSpace (c : Char) : Bool :=
  !(c = ' ' || c = '\t' || c = '\n' || c = '\r' || c = '\x0b' || c = '\x0c')

/-- `[A-Z0-9](?:[A-Z0-9-]{0,61}[A-Z0-9])?\.` — one domain label with its dot. -/
def urlLabel : RE :=
  .seq (.cls isAlnumCI)
    (.seq (.alt (.seq (.rep isAlnumDashCI 0 (some 61)) (.cls isAlnumCI)) .eps)
      (reChar '.'))

/-- `(?:[A-Z]{2,6}\.?|[A-Z0-9-]{2,}\.?)` — the final domain component. -/
def urlTld : RE :=
  .alt (.seq (.rep isAlphaCI 2 (some 6)) (.rep (fun c => c = '.') 0 (some 1)))
    (.seq (.rep isAlnumDashCI 2 none) (.rep (fun c => c = '.') 0 (some 1)))

/-- `\d{1,3}\.\d{1,3}\.\d{1,3}\.\d{1,3}` — a literal IPv4 address. -/
def urlIpv4 : RE :=
  .seq (.rep isDigitC 1 (some 3))
    (.seq (reChar '.')
      (.seq (.rep isDigitC 1 (some 3))
        (.seq (reChar '.')
          (.seq (.rep isDigitC 1 (some 3))
            (.seq (reChar '.') (.rep isDigitC 1 (some 3)))))))

/-- The host alternative of the `is_url` pattern: domain, `localhost`, or IPv4. -/
def urlHost : RE :=
  .alt (.seq (.seq urlLabel (.star urlLabel)) urlTld)
    (.alt (reStrCI (("localhost").toList)) urlIpv4)

/-- The full pattern of `is_url` (compiled with `re.IGNORECASE`):
`^(?:http)s?://(?:domain|localhost|ip)(?::\d+)?(?:/?|[/?]\S+)$`. -/
def urlRE : RE :=
  .seq (reStrCI (("http").toList))
    (.seq (.rep (fun c => lowerChar c = 's') 0 (some 1))
      (.seq (reStr (("://").toList))
        (.seq urlHost
          (.seq (.alt (.seq (reChar ':') (.rep isDigitC 1 none)) .eps)
            (.alt (.rep (fun c => c = '/') 0 (some 1))
              (.seq (.cls (fun c => c = '/' || c = '?')) (.rep isNonSpace 1 none)))))))

/-- `is_url`: `re.match(pattern, url) is not None`. -/
def is_url (url : List Char) : Bool := reMatchDollar urlRE url

/-- `[-.a-z\d]` — the host class of the proxy pattern (case-sensitive;
the input is lowercased before matching). -/
def isProxyHostChar (c : Char) : Bool :=
  c = '-' || c = '.' || (97 ≤ c.toNat && c.toNat ≤ 122) || isDigitC c

/-- The proxy pattern of `validate_proxy`: `^(socks5|http)://([-.a-z\d]+):(\d+)$`. -/
def proxyRE : RE :=
  .seq (.alt (reStr (("socks5").toList)) (reStr (("http").toList)))
    (.seq (reStr (("://").toList))
      (.seq (.rep isProxyHostChar 1 none)
        (.seq (reChar ':') (.rep isDigitC 1 none))))

/-- `re.match` of the proxy pattern. -/
def proxyMatch (s : List Char) : Bool := reMatchDollar proxyRE s

/-- The value stored under one key of a section.  Raw values are strings;
the validation passes replace them in place with typed values.
`vnone` is Python `None`; it occurs only as the content of a
`string.Template` built from a missing key (`Template` stores its
argument without validation), never directly in a section, because
`allow_no_value` is off.  `vtemplate t` is a `string.Template` whose
`template` member is `t`. -/
inductive CfgValue where
  | vstr : List Char → CfgValue
  | vint : Int → CfgValue
  | vbool : Bool → CfgValue
  | vtuple : List (List Char) → CfgValue
  | vdict : List (List Char × List Char) → CfgValue
  | vnone : CfgValue
  | vtemplate : CfgValue → CfgValue
deriving DecidableEq

/-- The Python exception classes the modelled code can raise. -/
inductive PyErr where
  | keyError : List Char → PyErr
  | attributeError : PyErr
  | typeError : PyErr
  | valueError : PyErr
  | noSectionError : PyErr
  | noOptionError : PyErr
  | badPctError : PyErr
  | missingOptError : PyErr
  | depthError : PyErr
  | importError : PyErr
deriving DecidableEq

instance exceptDecEq {ε α : Type} [DecidableEq ε] [DecidableEq α] :
    DecidableEq (Except ε α) := fun x y =>
  match x, y with
  | .ok a, .ok b => if h : a = b then .isTrue (by rw [h]) else .isFalse (by simp [h])
  | .error a, .error b => if h : a = b then .isTrue (by rw [h]) else .isFalse (by simp [h])
  | .ok _, .error _ => .isFalse (by simp)
  | .error _, .ok _ => .isFalse (by simp)

/-- One section: an insertion-ordered dict from key to value. -/
abbrev CfgSection := List (List Char × CfgValue)

/-- `Config._sections`: an insertion-ordered dict from section name to section. -/
abbrev CfgSections := List (List Char × CfgSection)

instance cfgSectionDecEq : DecidableEq CfgSection := instDecidableEqList

instance cfgSectionsDecEq : DecidableEq CfgSections := instDecidableEqList

instance cfgSectionsPairDecEq : DecidableEq (CfgSections × List (List Char)) :=
  instDecidableEqProd

/-- Dict lookup (first binding wins; a dict has no duplicate keys). -/
def alookup (k : List Char) : List (List Char × α) → Option α
  | [] => none
  | (k2, v) :: rest => if k2 = k then some v else alookup k rest

/-- Dict assignment: overwrite in place, append when the key is new. -/
def aset (k : List Char) (v : α) : List (List Char × α) → List (List Char × α)
  | [] => [(k, v)]
  | (k2, v2) :: rest => if k2 = k then (k2, v) :: rest else (k2, v2) :: aset k v rest

/-- `cfg._sections[sec][key] = v` (no-op when the section is absent;
all call sites have already established that it is present). -/
def setk (secs : CfgSections) (sec key : List Char) (v : CfgValue) : CfgSections :=
  match alookup sec secs with
  | none => secs
  | some d => aset sec (aset key v d) secs

/-- Lookup of a key of a section. -/
def lookup2 (secs : CfgSections) (sec key : List Char) : Option CfgValue :=
  (alookup sec secs).bind (alookup key)

/-- `Config.__getattr__`: `if name not in self._sections: raise KeyError(name);
return self._sections.get(name)`.  (The hook runs for names that are not
ordinary attributes of the object.) -/
def config_getattr (secs : CfgSections) (name : List Char) : Except PyErr CfgSection :=
  match alookup name secs with
  | none => .error (.keyError name)
  | some d => .ok d

/-- `DotDict.__getattr__ = dict.get`: a missing key yields `None` (here
`none`) instead of raising.  (The hook runs for names that are not
ordinary attributes of the object.) -/
def dotdict_getattr (d : CfgSection) (key : List Char) : Option CfgValue :=
  alookup key d

/-- Raw attribute read `cfg.Sec.key` at a call site that immediately calls
a `str` method on the result: a missing section raises `KeyError`, and a
missing key (`None`) or an already-typed value raises `AttributeError`
when the method is looked up. -/
def getRawStr (secs : CfgSections) (sec key : List Char) : Except PyErr (List Char) := do
  let d ← config_getattr secs sec
  match dotdict_getattr d key with
  | some (.vstr s) => .ok s
  | _ => .error .attributeError

/-- One step of the scan of `BasicInterpolation._interpolate_some`:
a literal character, a `%%` (literal percent), a `%(name)s` reference,
or a `%` that fits none of these (`InterpolationSyntaxError` when it is
reached). -/
inductive ISeg where
  | lit : Char → ISeg
  | pp : ISeg
  | ref : List Char → ISeg
  | bad : ISeg

/-- The left-to-right scan of one interpolation level.  The mode is
`none` in plain text and `some acc` inside `%(`, collecting the
(reversed) reference name.  A `%` not followed by `%` or `(`, a
reference without a closing `)s`, and an empty reference name all fail
the `_KEYCRE` pattern `%\(([^)]+)\)s` and become a `bad` marker at that
position (Python raises when the scan reaches it, after the preceding
segments were processed). -/
def iscanGo : Option (List Char) → List Char → List ISeg
  | none, [] => []
  | none, c :: rest =>
    if c = '%' then
      match rest with
      | [] => [ISeg.bad]
      | a :: rest2 =>
        if a = '%' then ISeg.pp :: iscanGo none rest2
        else if a = '(' then iscanGo (some []) rest2
        else [ISeg.bad]
    else ISeg.lit c :: iscanGo none rest
  | some _, [] => [ISeg.bad]
  | some acc, c :: rest =>
    if c = ')' then
      match rest with
      | 's' :: rest2 =>
        if acc = [] then [ISeg.bad]
        else ISeg.ref acc.reverse :: iscanGo none rest2
      | _ => [ISeg.bad]
    else iscanGo (some (c :: acc)) rest

/-- Processing of the scanned segments of one level against the section
dict `d`; `sub` interpolates a referenced value one level deeper.
The referenced name is looked up lowercased (`optionxform`); a missing
option raises (`missingOptError`).  A referenced string containing `%`
is interpolated recursively, otherwise appended as is.  A non-string
referenced value fails on the `'%' in value` test (`TypeError`), except
a tuple or dict, whose membership test succeeds and which then fails
either on `.find` (`AttributeError`, when the membership test found
`"%"`) or on the final `''.join` (`TypeError`). -/
def interpTok (d : CfgSection) (sub : List Char → Except PyErr (List Char)) :
    List ISeg → Except PyErr (List Char)
  | [] => .ok []
  | t :: toks =>
    match t with
    | .lit c => (interpTok d sub toks).map (c :: ·)
    | .pp => (interpTok d sub toks).map ('%' :: ·)
    | .bad => .error .badPctError
    | .ref nm =>
      match alookup (pyLower nm) d with
      | none => .error .missingOptError
      | some (.vstr v) =>
        if v.contains '%' then do
          let tv ← sub v
          let t2 ← interpTok d sub toks
          .ok (tv ++ t2)
        else (interpTok d sub toks).map (v ++ ·)
      | some (.vtuple ts) =>
        if (("%").toList) ∈ ts then .error .attributeError else .error .typeError
      | some (.vdict m) =>
        if (alookup (("%").toList) m).isSome then .error .attributeError
        else .error .typeError
      | some _ => .error .typeError

/-- `_interpolate_some` with `b` levels of recursion budget left:
Python enters levels at depth 1..10 and raises
`InterpolationDepthError` past `MAX_INTERPOLATION_DEPTH = 10`. -/
def interpDepth (d : CfgSection) : Nat → List Char → Except PyErr (List Char)
  | 0, _ => .error .depthError
  | b + 1, s => interpTok d (interpDepth d b) (iscanGo none s)

/-- `Interpolation.before_get` as reached from `ConfigParser.get`
(`raw=False`): a string is interpolated (10 levels of budget); a
non-string value enters the `while rest:` loop, where a falsy value
yields `''` and a truthy one fails on `rest.find` (`AttributeError`). -/
def before_get (d : CfgSection) (v : CfgValue) : Except PyErr (List Char) :=
  match v with
  | .vstr s => interpDepth d 10 s
  | .vint n => if n = 0 then .ok [] else .error .attributeError
  | .vbool b => if b then .error .attributeError else .ok []
  | .vtuple ts => if ts = [] then .ok [] else .error .attributeError
  | .vdict m => if m = [] then .ok [] else .error .attributeError
  | .vnone => .error .typeError
  | .vtemplate _ => .error .attributeError

/-- `ConfigParser.get(section, option)`: missing section raises
`NoSectionError`, missing option (after `optionxform`, i.e. lowercasing)
raises `NoOptionError`, then the value goes through interpolation. -/
def cp_get (secs : CfgSections) (sec key : List Char) : Except PyErr (List Char) :=
  match alookup sec secs with
  | none => .error .noSectionError
  | some d =>
    match alookup (pyLower key) d with
    | none => .error .noOptionError
    | some v => before_get d v

/-- Python's whitespace characters (ASCII part), as stripped by `int()`. -/
def isPySpace (c : Char) : Bool :=
  c = ' ' || c = '\t' || c = '\n' || c = '\r' || c = '\x0b' || c = '\x0c'

def stripWS (s : List Char) : List Char :=
  ((s.dropWhile isPySpace).reverse.dropWhile isPySpace).reverse

/-- Digits after the first one: `int()` accepts single underscores
strictly between digits. -/
def digitsRest (acc : Nat) : List Char → Option Nat
  | [] => some acc
  | '_' :: c :: rest =>
    if isDigitC c then digitsRest (acc * 10 + (c.toNat - 48)) rest else none
  | '_' :: [] => none
  | c :: rest =>
    if isDigitC c then digitsRest (acc * 10 + (c.toNat - 48)) rest else none

def digitsVal : List Char → Option Nat
  | [] => none
  | c :: rest => if isDigitC c then digitsRest (c.toNat - 48) rest else none

/-- Python `int(s)` on a string: strip whitespace, optional sign, base-10
digits; anything else raises `ValueError`. -/
def pyInt (s : List Char) : Except PyErr Int :=
  let t := stripWS s
  match t with
  | '+' :: rest =>
    match digitsVal rest with
    | some n => .ok (n : Int)
    | none => .error .valueError
  | '-' :: rest =>
    match digitsVal rest with
    | some n => .ok (-(n : Int))
    | none => .error .valueError
  | rest =>
    match digitsVal rest with
    | some n => .ok (n : Int)
    | none => .error .valueError

/-- `ConfigParser.getint = int(get(...))`. -/
def cp_getint (secs : CfgSections) (sec key : List Char) : Except PyErr Int := do
  pyInt (← cp_get secs sec key)

/-- `RawConfigParser._convert_to_boolean`: recognizes `1/yes/true/on`
and `0/no/false/off` after lowercasing, raises `ValueError` otherwise. -/
def convert_to_boolean (s : List Char) : Except PyErr Bool :=
  let l := pyLower s
  if l = (("1").toList) ∨ l = (("yes").toList) ∨ l = (("true").toList) ∨ l = (("on").toList) then
    .ok true
  else if l = (("0").toList) ∨ l = (("no").toList) ∨ l = (("false").toList) ∨ l = (("off").toList) then
    .ok false
  else .error .valueError

/-- `ConfigParser.getboolean`. -/
def cp_getboolean (secs : CfgSections) (sec key : List Char) : Except PyErr Bool := do
  convert_to_boolean (← cp_get secs sec key)

def kNetwork : List Char := ("Network").toList
def kRetry : List Char := ("retry").toList
def kTimeout : List Char := ("timeout").toList
def kProxy : List Char := ("proxy").toList
def kFile : List Char := ("File").toList
def kMediaExt : List Char := ("media_ext").toList
def kIgnoreFolder : List Char := ("ignore_folder").toList
def kCrawler : List Char := ("Crawler").toList
def kRequiredKeys : List Char := ("required_keys").toList
def kHardworking : List Char := ("hardworking_mode").toList
def kRemoveActor : List Char := ("remove_actor_in_title").toList
def kFc2fanPath : List Char := ("fc2fan_local_path").toList
def kNFO : List Char := ("NFO").toList
def kAddGenre : List Char := ("add_genre_to_tag").toList
def kPriority : List Char := ("Priority").toList
def kNamingRule : List Char := ("NamingRule").toList
def kOutputFolder : List Char := ("output_folder").toList
def kSaveDir : List Char := ("save_dir").toList
def kFilename : List Char := ("filename").toList
def kProxyFree : List Char := ("ProxyFree").toList
def kHttp : List Char := ("http").toList
def kHttps : List Char := ("https").toList

/-- `norm_int`: `cfg.Network.retry = cfg.getint('Network', 'retry')` and
likewise for `timeout` (the right-hand side is evaluated first, so a
missing section or option raises from `getint`). -/
def norm_int (secs : CfgSections) : Except PyErr CfgSections := do
  let r ← cp_getint secs kNetwork kRetry
  let secs := setk secs kNetwork kRetry (.vint r)
  let t ← cp_getint secs kNetwork kTimeout
  .ok (setk secs kNetwork kTimeout (.vint t))

/-- `norm_tuples`: the three tuple coercions, each reading the raw
attribute and immediately calling `str` methods on it. -/
def norm_tuples (secs : CfgSections) : Except PyErr CfgSections := do
  let me ← getRawStr secs kFile kMediaExt
  let secs := setk secs kFile kMediaExt (.vtuple (media_ext_exts me))
  let ig ← getRawStr secs kFile kIgnoreFolder
  let secs := setk secs kFile kIgnoreFolder (.vtuple (splitChar ';' ig))
  let rk ← getRawStr secs kCrawler kRequiredKeys
  .ok (setk secs kCrawler kRequiredKeys (.vtuple (splitChar ',' rk)))

/-- The fixed field list of `norm_boolean`. -/
def boolFields : List (List Char × List Char) :=
  [(kCrawler, kHardworking), (kCrawler, kRemoveActor), (kNFO, kAddGenre)]

def norm_boolean_go : List (List Char × List Char) → CfgSections → Except PyErr CfgSections
  | [], secs => .ok secs
  | (sec, key) :: rest, secs => do
    let b ← cp_getboolean secs sec key
    norm_boolean_go rest (setk secs sec key (.vbool b))

/-- `norm_boolean`: `cfg._sections[sec][key] = cfg.getboolean(sec, key)`
for the three boolean fields. -/
def norm_boolean (secs : CfgSections) : Except PyErr CfgSections :=
  norm_boolean_go boolFields secs

/-- The pure core of `validate_proxy`: lowercase the raw string; an empty
result gives the empty mapping without a warning; a match of the proxy
pattern maps both `http` and `https` to the matched (lowered) string; a
non-empty non-match logs a warning (the returned flag) and gives the
empty mapping. -/
def parse_proxy (raw : List Char) : (List (List Char × List Char)) × Bool :=
  let proxy := pyLower raw
  if proxy = [] then ([], false)
  else if proxyMatch proxy then ([(kHttp, proxy), (kHttps, proxy)], false)
  else ([], true)

/-- `validate_proxy`: reads `cfg.Network.proxy` as a raw attribute,
stores the resulting mapping back; the flag records whether a warning
was logged. -/
def validate_proxy (secs : CfgSections) : Except PyErr (CfgSections × Bool) := do
  let raw ← getRawStr secs kNetwork kProxy
  let pr := parse_proxy raw
  .ok (setk secs kNetwork kProxy (.vdict pr.1), pr.2)

/-- The import outcome of `__import__('web.' + name)`:
loadable, `ModuleNotFoundError`, or any other exception (which the
`except ModuleNotFoundError` clause does not catch). -/
inductive ImpRes where
  | success : ImpRes
  | moduleNotFound : ImpRes
  | otherError : ImpRes
deriving DecidableEq

def webNS : List Char := ("web.").toList
def fc2fanName : List Char := ("fc2fan").toList

/-- The `fc2fan` precondition of `import_crawlers`:
`os.path.isdir(cfg.Crawler.fc2fan_local_path)`, evaluated only when the
name `fc2fan` is reached.  A missing `Crawler` section raises `KeyError`;
a missing key gives `None` and `os.path.isdir(None)` raises `TypeError`
(no other value kind reaches this point in the pipeline). -/
def fc2fanGate (isdirF : List Char → Bool) (secs : CfgSections) : Except PyErr Bool := do
  let d ← config_getattr secs kCrawler
  match dotdict_getattr d kFc2fanPath with
  | some (.vstr p) => .ok (isdirF p)
  | _ => .error .typeError

/-- The inner loop of `import_crawlers` over the names of one category:
`fc2fan` is skipped (with only a debug note) when the gate is false;
otherwise `web.<name>` is imported — on success the full module path is
appended to the valid list, on `ModuleNotFoundError` the bare name is
appended to the unknown list, and any other import error propagates. -/
def resolveMods (imp : List Char → ImpRes) (gate : Except PyErr Bool) :
    List (List Char) → Except PyErr (List (List Char) × List (List Char))
  | [] => .ok ([], [])
  | name :: rest =>
    if name = fc2fanName then
      match gate with
      | .error e => .error e
      | .ok g =>
        if g then
          match imp (webNS ++ name) with
          | .success => (resolveMods imp gate rest).map (fun vu => ((webNS ++ name) :: vu.1, vu.2))
          | .moduleNotFound => (resolveMods imp gate rest).map (fun vu => (vu.1, name :: vu.2))
          | .otherError => .error .importError
        else resolveMods imp gate rest
    else
      match imp (webNS ++ name) with
      | .success => (resolveMods imp gate rest).map (fun vu => ((webNS ++ name) :: vu.1, vu.2))
      | .moduleNotFound => (resolveMods imp gate rest).map (fun vu => (vu.1, name :: vu.2))
      | .otherError => .error .importError

/-- The loop of `import_crawlers` over the `Priority` items: each raw
comma-separated value is split on `,`, resolved, and replaced by the
tuple of valid module paths; unknown names accumulate across categories.
A non-string value fails on `.split` (`AttributeError`). -/
def icGo (imp : List Char → ImpRes) (gate : Except PyErr Bool) :
    List (List Char × CfgValue) → CfgSections → List (List Char) →
    Except PyErr (CfgSections × List (List Char))
  | [], secs, unknown => .ok (secs, unknown)
  | (typ, v) :: rest, secs, unknown =>
    match v with
    | .vstr cfg_str => do
      let vu ← resolveMods imp gate (splitChar ',' cfg_str)
      icGo imp gate rest (setk secs kPriority typ (.vtuple vu.1)) (unknown ++ vu.2)
    | _ => .error .attributeError

/-- `import_crawlers`: iterate over `cfg.Priority.items()` (a missing
`Priority` section raises `KeyError`); the second component is the
collected list of unknown provider names (warned about once at the end,
never raised). -/
def import_crawlers (imp : List Char → ImpRes) (isdirF : List Char → Bool)
    (secs : CfgSections) : Except PyErr (CfgSections × List (List Char)) := do
  let prio ← config_getattr secs kPriority
  icGo imp (fc2fanGate isdirF secs) prio secs []

/-- `os.sep`, on the POSIX platforms the program targets. -/
def osSep : List Char := ("/").toList

/-- `convert_naming_rule`:
`combine = cfg.NamingRule.output_folder + os.sep + cfg.NamingRule.save_dir`
(string concatenation with `None` or a typed value raises `TypeError`),
then both templates are stored (`Template` accepts any argument). -/
def convert_naming_rule (secs : CfgSections) : Except PyErr CfgSections := do
  let d ← config_getattr secs kNamingRule
  let ofo ← (match dotdict_getattr d kOutputFolder with
    | some (.vstr s) => Except.ok s
    | _ => Except.error PyErr.typeError)
  let sd ← (match dotdict_getattr d kSaveDir with
    | some (.vstr s) => Except.ok s
    | _ => Except.error PyErr.typeError)
  let combine := ofo ++ osSep ++ sd
  let file_t : CfgValue := .vtemplate (match dotdict_getattr d kFilename with
    | some v => v
    | none => .vnone)
  let secs := setk secs kNamingRule kSaveDir (.vtemplate (.vstr combine))
  .ok (setk secs kNamingRule kFilename file_t)

/-- Prepend `http://` when the (lowered) value lacks an `http` prefix. -/
def addHttp (u : List Char) : List Char :=
  if hasPfx (("http").toList) u then u else (("http://").toList) ++ u

/-- The per-entry sanitization of `check_proxy_free_url`: lowercase,
add the scheme when missing, keep the value only when `is_url` accepts
it, else blank it (silently). -/
def sanitize_url (u : List Char) : List Char :=
  let v := addHttp (pyLower u)
  if is_url v then v else []

/-- `value.replace('%%', '')` of `BasicInterpolation.before_set`:
remove the escaped percent signs, left to right, non-overlapping. -/
def stripPctPct : List Char → List Char
  | [] => []
  | '%' :: '%' :: rest => stripPctPct rest
  | c :: rest => c :: stripPctPct rest

/-- Continuation of a `_KEYCRE` match after at least one name character:
consume `[^)]*` up to the first `)`, then require `s`; return the
suffix after the match.  (`[^)]+` cannot cross a `)`, so the `)` of the
pattern can only be the first one.) -/
def keycreClose : List Char → Option (List Char)
  | [] => none
  | c :: rest =>
    if c = ')' then
      match rest with
      | 's' :: rest2 => some rest2
      | _ => none
    else keycreClose rest

/-- Whether `_KEYCRE` (`%\(([^)]+)\)s`) matches at the head of the
string; on a match, the suffix after it. -/
def keycreAt : List Char → Option (List Char)
  | '%' :: '(' :: c :: rest => if c = ')' then none else keycreClose rest
  | _ => none

/-- `_KEYCRE.sub('', s)`: remove the leftmost non-overlapping matches,
resuming at the next character when no match starts at the current one.
The fuel (initially the string length, consumed one or more characters
per step) keeps the recursion structural. -/
def stripKeyRefsGo : Nat → List Char → List Char
  | 0, l => l
  | _ + 1, [] => []
  | fuel + 1, c :: rest =>
    match keycreAt (c :: rest) with
    | some suffix => stripKeyRefsGo fuel suffix
    | none => c :: stripKeyRefsGo fuel rest

def stripKeyRefs (l : List Char) : List Char := stripKeyRefsGo l.length l

/-- `BasicInterpolation.before_set`, as a predicate: after removing the
`%%` escapes and the `%(name)s` references, no `%` may remain; a
surviving bare `%` makes `before_set` raise `ValueError`. -/
def before_set_ok (value : List Char) : Bool :=
  !(stripKeyRefs (stripPctPct value)).contains '%'

/-- The loop of `check_proxy_free_url` over the site keys: each value is
read through `ConfigParser.get` (the `SectionProxy` item view) and the
sanitized value is stored back before the next key is processed.
The store `sec[site] = ...` goes through `SectionProxy.__setitem__` →
`ConfigParser.set` → `RawConfigParser.set`: a non-empty value passes
through `BasicInterpolation.before_set`, which raises `ValueError` on a
surviving bare `%` (an empty value skips the check), and the key is
stored through `optionxform`, i.e. lowercased (keys of a parsed section
are already lowercase). -/
def cpfuGo (sites : List (List Char)) (secs : CfgSections) : Except PyErr CfgSections :=
  match sites with
  | [] => .ok secs
  | site :: rest => do
    let url ← cp_get secs kProxyFree site
    let v := sanitize_url url
    if v ≠ [] ∧ before_set_ok v = false then .error .valueError
    else cpfuGo rest (setk secs kProxyFree (pyLower site) (.vstr v))

/-- `check_proxy_free_url`: `cfg['ProxyFree']` raises `KeyError` when the
section is absent; otherwise every entry is sanitized in place. -/
def check_proxy_free_url (secs : CfgSections) : Except PyErr CfgSections :=
  match alookup kProxyFree secs with
  | none => .error (.keyError kProxyFree)
  | some d => cpfuGo (d.map (fun kv => kv.1)) secs

/-- `Config.validate`: the fixed sequence of normalization passes.
`imp` is the import oracle for provider modules and `isdirF` the
`os.path.isdir` oracle; the logged warnings of `validate_proxy` and
`import_crawlers` are discarded here. -/
def validate (imp : List Char → ImpRes) (isdirF : List Char → Bool)
    (secs : CfgSections) : Except PyErr CfgSections := do
  let s1 ← norm_int secs
  let s2 ← norm_tuples s1
  let s3 ← norm_boolean s2
  let s4 := (← validate_proxy s3).1
  let s5 := (← import_crawlers imp isdirF s4).1
  let s6 ← convert_naming_rule s5
  check_proxy_free_url s6

/-- Whether `import_crawlers` attempts the import of `n` at all when the
`fc2fan` gate evaluates to `g` (`fc2fan` is skipped when the gate is
false; every other name is always attempted). -/
def attemptedB (g : Bool) (n : List Char) : Bool :=
  !(decide (n = fc2fanName) && !g)

/-- A small complete raw configuration (every value a string). -/
def cfg0 : CfgSections := [
  (kNetwork, [(kRetry, .vstr (("3").toList)), (kTimeout, .vstr (("5").toList)),
              (kProxy, .vstr [])]),
  (kFile, [(kMediaExt, .vstr (("mp4;AVI;.mkv").toList)),
           (kIgnoreFolder, .vstr (("a;b").toList))]),
  (kCrawler, [(kRequiredKeys, .vstr (("title").toList)),
              (kHardworking, .vstr (("yes").toList)),
              (kRemoveActor, .vstr (("no").toList)),
              (kFc2fanPath, .vstr (("/x").toList))]),
  (kNFO, [(kAddGenre, .vstr (("true").toList))]),
  (kPriority, [((("movie").toList), .vstr (("siteA,siteB").toList))]),
  (kNamingRule, [(kOutputFolder, .vstr (("out").toList)),
                 (kSaveDir, .vstr (("d").toList)),
                 (kFilename, .vstr (("f").toList))]),
  (kProxyFree, [((("sitea").toList), .vstr (("example.com").toList))])]

/-- An import oracle under which no provider module is found. -/
def imp0 : List Char → ImpRes := fun _ => .moduleNotFound

/-- An import oracle under which every provider module loads. -/
def impAllOk : List Char → ImpRes := fun _ => .success

/-- An import oracle under which `web.siteA` and `web.siteC` load and
everything else raises `ModuleNotFoundError`. -/
def imp3 : List Char → ImpRes := fun n =>
  if n = ("web.siteA").toList then .success
  else if n = ("web.siteC").toList then .success
  else .moduleNotFound

/-- An `os.path.isdir` oracle under which no path is a directory. -/
def isd0 : List Char → Bool := fun _ => false

/-- A configuration fragment with one `Priority` category. -/
def cfgP3 : CfgSections :=
  [(kPriority, [((("actor").toList), .vstr (("siteA,siteB,siteC").toList))])]

/-- `cfgP3` after `import_crawlers` under the oracle `imp3`. -/
def cfgP3res : CfgSections :=
  [(kPriority, [((("actor").toList),
      .vtuple [(("web.siteA").toList), (("web.siteC").toList)])])]

/-- A configuration fragment whose three boolean fields hold recognized
tokens of mixed case. -/
def cfgB : CfgSections := [
  (kCrawler, [(kHardworking, .vstr (("Yes").toList)),
              (kRemoveActor, .vstr (("OFF").toList)),
              (kFc2fanPath, .vstr (("/x").toList))]),
  (kNFO, [(kAddGenre, .vstr (("1").toList))])]

/-- `cfgB` after `norm_boolean`. -/
def cfgBok : CfgSections := [
  (kCrawler, [(kHardworking, .vbool true),
              (kRemoveActor, .vbool false),
              (kFc2fanPath, .vstr (("/x").toList))]),
  (kNFO, [(kAddGenre, .vbool true)])]

/-- A configuration fragment with an unrecognized boolean token. -/
def cfgBbad : CfgSections := [
  (kCrawler, [(kHardworking, .vstr (("Yes").toList)),
              (kRemoveActor, .vstr (("off").toList))]),
  (kNFO, [(kAddGenre, .vstr (("maybe").toList))])]

/-- A configuration fragment with two free-proxy entries. -/
def cfgPF : CfgSections := [
  (kProxyFree, [((("sitea").toList), .vstr (("example.com").toList)),
                ((("siteb").toList), .vstr (("!!!invalid!!!").toList))])]

/-- `cfgPF` after `check_proxy_free_url`. -/
def cfgPFok : CfgSections := [
  (kProxyFree, [((("sitea").toList), .vstr (("http://example.com").toList)),
                ((("siteb").toList), .vstr [])])]

/-- A configuration fragment whose free-proxy entry holds the ini text
`example.com/a%%b`, which interpolation reads as `example.com/a%b`. -/
def cfgPFbad : CfgSections := [
  (kProxyFree, [((("sitea").toList), .vstr (("example.com/a%%b").toList))])]

theorem toNat_ofNat_valid {n : Nat} (h : n < 55296) : (Char.ofNat n).toNat = n := by
  have hv : n.isValidChar := Or.inl h
  rw [Char.ofNat, dif_pos hv]
  rfl

theorem lowerChar_toNat (c : Char) :
    (lowerChar c).toNat =
      if 65 ≤ c.toNat ∧ c.toNat ≤ 90 then c.toNat + 32 else c.toNat := by
  unfold lowerChar
  split
  · next h => exact toNat_ofNat_valid (by omega)
  · rfl

theorem lowerChar_of_not_upper {c : Char} (h : ¬(65 ≤ c.toNat ∧ c.toNat ≤ 90)) :
    lowerChar c = c := by
  unfold lowerChar
  rw [if_neg h]

theorem lowerChar_idem (c : Char) : lowerChar (lowerChar c) = lowerChar c := by
  apply lowerChar_of_not_upper
  rw [lowerChar_toNat]
  split <;> omega

theorem pyLower_idem (s : List Char) : pyLower (pyLower s) = pyLower s := by
  unfold pyLower
  rw [List.map_map]
  apply List.map_congr_left
  intro a _
  exact lowerChar_idem a

theorem mem_pyLower {c : Char} {s : List Char} (h : c ∈ pyLower s) :
    lowerChar c = c := by
  unfold pyLower at h
  obtain ⟨a, _, rfl⟩ := List.mem_map.mp h
  exact lowerChar_idem a

theorem pyLower_eq_self {s : List Char} (h : ∀ c ∈ s, lowerChar c = c) :
    pyLower s = s := by
  unfold pyLower
  induction s with
  | nil => rfl
  | cons c rest ih =>
    simp only [List.map_cons]
    rw [h c (List.mem_cons_self c rest), ih (fun a ha => h a (List.mem_cons_of_mem c ha))]

theorem splitChar_ne_nil (sep : Char) (s : List Char) : splitChar sep s ≠ [] := by
  induction s with
  | nil => simp [splitChar]
  | cons c rest ih =>
    simp only [splitChar]
    split
    · simp
    · split
      · simp
      · simp

theorem mem_splitChar {sep : Char} {s w : List Char} (hw : w ∈ splitChar sep s) :
    ∀ c ∈ w, c ∈ s := by
  induction s generalizing w with
  | nil =>
    simp only [splitChar, List.mem_singleton] at hw
    subst hw
    simp
  | cons a rest ih =>
    simp only [splitChar] at hw
    by_cases ha : a = sep
    · rw [if_pos ha] at hw
      rcases List.mem_cons.mp hw with h | h
      · subst h
        simp
      · exact fun c hc => List.mem_cons_of_mem _ (ih h c hc)
    · rw [if_neg ha] at hw
      cases hsp : splitChar sep rest with
      | nil => exact absurd hsp (splitChar_ne_nil sep rest)
      | cons w0 ws =>
        rw [hsp] at hw
        rcases List.mem_cons.mp hw with h | h
        · subst h
          intro c hc
          rcases List.mem_cons.mp hc with rfl | hc2
          · exact List.mem_cons_self _ _
          · refine List.mem_cons_of_mem _ ?_
            exact ih (by rw [hsp]; exact List.mem_cons_self w0 ws) c hc2
        · intro c hc
          refine List.mem_cons_of_mem _ ?_
          exact ih (by rw [hsp]; exact List.mem_cons_of_mem w0 h) c hc

/-- C1: for every raw `File.media_ext` string, the tuple coercion splits
the lowered string on `;` and maps each chunk to itself or to `.`+chunk,
so the result has one entry per chunk (order and duplicates preserved),
every entry starts with `.` and is fixed under lowercasing; on the input
`"mp4;AVI;.mkv"` it yields `(".mp4", ".avi", ".mkv")`. -/
theorem C1_media_ext_coercion :
    (∀ s, (media_ext_exts s).length = (splitChar ';' (pyLower s)).length
      ∧ ∀ e ∈ media_ext_exts s, startsWithDot e = true ∧ pyLower e = e)
    ∧ media_ext_exts (("mp4;AVI;.mkv").toList)
        = [((".mp4").toList), ((".avi").toList), ((".mkv").toList)] := by
  constructor
  · intro s
    constructor
    · simp [media_ext_exts]
    · intro e he
      simp only [media_ext_exts, List.mem_map] at he
      obtain ⟨i, hi, rfl⟩ := he
      have hchars : ∀ c ∈ i, lowerChar c = c :=
        fun c hc => mem_pyLower (mem_splitChar hi c hc)
      by_cases hd : startsWithDot i = true
      · rw [if_pos hd]
        exact ⟨hd, pyLower_eq_self hchars⟩
      · rw [if_neg hd]
        refine ⟨rfl, pyLower_eq_self ?_⟩
        intro c hc
        rcases List.mem_cons.mp hc with rfl | hc2
        · decide
        · exact hchars c hc2
  · decide

/-- Witness for C1 at the concrete input `"mp4;AVI;.mkv"`. -/
theorem C1_media_ext_coercion_witness :
    startsWithDot ((".avi").toList) = true
      ∧ pyLower ((".avi").toList) = ((".avi").toList) :=
  (C1_media_ext_coercion.1 (("mp4;AVI;.mkv").toList)).2 ((".avi").toList) (by decide)

/-- C2: proxy validation lowercases `Network.proxy`; a non-empty lowered
string matching `^(socks5|http)://([-.a-z\d]+):(\d+)$` yields the mapping
assigning that same matched string to both `http` and `https`, with no
warning; a non-empty non-match yields the empty mapping plus a warning
and no exception (`validate_proxy` stores the result back in place); in
particular `"http://127.0.0.1:1080"` yields the two-key mapping and
`"ftp://x:1"` the empty mapping plus a warning. -/
theorem C2_validate_proxy :
    (∀ raw, (pyLower raw ≠ [] → proxyMatch (pyLower raw) = true →
        parse_proxy raw = ([(kHttp, pyLower raw), (kHttps, pyLower raw)], false))
      ∧ (pyLower raw ≠ [] → proxyMatch (pyLower raw) = false →
        parse_proxy raw = ([], true)))
    ∧ (∀ secs raw out, getRawStr secs kNetwork kProxy = .ok raw →
        validate_proxy secs = .ok out →
        out = (setk secs kNetwork kProxy (.vdict (parse_proxy raw).1),
               (parse_proxy raw).2))
    ∧ parse_proxy (("http://127.0.0.1:1080").toList)
        = ([(kHttp, ("http://127.0.0.1:1080").toList),
            (kHttps, ("http://127.0.0.1:1080").toList)], false)
    ∧ parse_proxy (("ftp://x:1").toList) = ([], true) := by
  refine ⟨?_, ?_, by decide, by decide⟩
  · intro raw
    constructor
    · intro hne hm
      simp [parse_proxy, hne, hm]
    · intro hne hm
      simp [parse_proxy, hne, hm]
  · intro secs raw out hraw hv
    unfold validate_proxy at hv
    rw [hraw] at hv
    simp only [Except.bind, Bind.bind] at hv
    exact (Except.ok.inj hv).symm

/-- Witness for C2: the two branches at concrete proxies. -/
theorem C2_validate_proxy_witness :
    parse_proxy (("SOCKS5://my-host.example:9").toList)
        = ([(kHttp, ("socks5://my-host.example:9").toList),
            (kHttps, ("socks5://my-host.example:9").toList)], false)
      ∧ parse_proxy (("ftp://x:1\n!").toList) = ([], true) :=
  ⟨(C2_validate_proxy.1 (("SOCKS5://my-host.example:9").toList)).1 (by decide) (by decide),
   (C2_validate_proxy.1 (("ftp://x:1\n!").toList)).2 (by decide) (by decide)⟩

theorem resolveMods_ok (imp : List Char → ImpRes) (g : Bool) (names : List (List Char))
    (h : ∀ n ∈ names, attemptedB g n = true → imp (webNS ++ n) ≠ ImpRes.otherError) :
    resolveMods imp (.ok g) names =
      .ok (((names.filter
              (fun n => attemptedB g n && decide (imp (webNS ++ n) = ImpRes.success))).map
              (fun n => webNS ++ n)),
           names.filter
              (fun n => attemptedB g n && decide (imp (webNS ++ n) = ImpRes.moduleNotFound))) := by
  induction names with
  | nil => rfl
  | cons name rest ih =>
    have hrest := ih (fun n hn => h n (List.mem_cons_of_mem _ hn))
    have hname := h name (List.mem_cons_self _ _)
    by_cases hfc : name = fc2fanName
    · subst hfc
      by_cases hg : g = true
      · subst hg
        have hatt : attemptedB true fc2fanName = true := by simp [attemptedB]
        cases him : imp (webNS ++ fc2fanName) with
        | success =>
          simp [resolveMods, him, hrest, List.filter_cons, hatt, Except.map]
        | moduleNotFound =>
          simp [resolveMods, him, hrest, List.filter_cons, hatt, Except.map]
        | otherError => exact absurd him (hname hatt)
      · have hg2 : g = false := by revert hg; cases g <;> simp
        subst hg2
        have hatt : attemptedB false fc2fanName = false := by simp [attemptedB]
        simp [resolveMods, hrest, List.filter_cons, hatt]
    · have hatt : attemptedB g name = true := by simp [attemptedB, hfc]
      cases him : imp (webNS ++ name) with
      | success =>
        simp [resolveMods, hfc, him, hrest, List.filter_cons, hatt, Except.map]
      | moduleNotFound =>
        simp [resolveMods, hfc, him, hrest, List.filter_cons, hatt, Except.map]
      | otherError => exact absurd him (hname hatt)

/-- C3: for every `Priority` category, the raw comma-separated string is
split on `,`; provided no attempted import fails with an error other
than `ModuleNotFoundError`, resolution returns without raising; the
resolved tuple is exactly the `web.`-qualified handles of the attempted
names that load, in input order, and the names failing with
module-not-found are recorded as unknown (so the tuple may be shorter
than the input, or empty).  `import_crawlers` replaces the category's
raw string by that tuple and collects the unknown names, as the
concrete run over `"siteA,siteB,siteC"` (with `siteB` unloadable)
shows. -/
theorem C3_category_resolution :
    (∀ (imp : List Char → ImpRes) (g : Bool) (raw : List Char),
      (∀ n ∈ splitChar ',' raw, attemptedB g n = true →
        imp (webNS ++ n) ≠ ImpRes.otherError) →
      resolveMods imp (.ok g) (splitChar ',' raw) =
        .ok ((((splitChar ',' raw).filter
                (fun n => attemptedB g n && decide (imp (webNS ++ n) = ImpRes.success))).map
                (fun n => webNS ++ n)),
             (splitChar ',' raw).filter
                (fun n => attemptedB g n && decide (imp (webNS ++ n) = ImpRes.moduleNotFound))))
    ∧ import_crawlers imp3 isd0 cfgP3 = .ok (cfgP3res, [(("siteB").toList)]) :=
  ⟨fun imp g raw h => resolveMods_ok imp g (splitChar ',' raw) h, by decide⟩

/-- Witness for C3: category `"siteA,siteB,siteC"` where `web.siteB`
fails to import yields `["web.siteA", "web.siteC"]` and `["siteB"]`. -/
theorem C3_category_resolution_witness :
    resolveMods imp3 (.ok true) (splitChar ',' (("siteA,siteB,siteC").toList)) =
      .ok ([(("web.siteA").toList), (("web.siteC").toList)], [(("siteB").toList)]) := by
  rw [C3_category_resolution.1 imp3 true (("siteA,siteB,siteC").toList) (by decide)]
  decide

/-- C7: the reserved provider `fc2fan` is attempted only when the
configured `Crawler.fc2fan_local_path` is a directory.  When the gate is
false, reaching the name is a pure skip (a debug note only): no error,
nothing appended to the resolved sequence, nothing recorded as unknown —
the run continues exactly as if the name were absent.  When the gate is
true and the module loads, `web.fc2fan` is prepended to the remaining
resolution like any other provider.  The gate itself is
`os.path.isdir` applied to the configured path. -/
theorem C7_fc2fan_gate :
    (∀ imp rest, resolveMods imp (.ok false) (fc2fanName :: rest)
        = resolveMods imp (.ok false) rest)
    ∧ (∀ imp rest, imp (webNS ++ fc2fanName) = ImpRes.success →
        resolveMods imp (.ok true) (fc2fanName :: rest)
          = (resolveMods imp (.ok true) rest).map
              (fun vu => ((webNS ++ fc2fanName) :: vu.1, vu.2)))
    ∧ (∀ isdirF secs d p, config_getattr secs kCrawler = .ok d →
        dotdict_getattr d kFc2fanPath = some (.vstr p) →
        fc2fanGate isdirF secs = .ok (isdirF p)) := by
  refine ⟨?_, ?_, ?_⟩
  · intro imp rest
    simp [resolveMods]
  · intro imp rest him
    simp [resolveMods, him]
  · intro isdirF secs d p h1 h2
    unfold fc2fanGate
    rw [h1]
    simp only [Bind.bind, Except.bind, h2]

/-- Witness for C7 at a concrete gate, import oracle and name list. -/
theorem C7_fc2fan_gate_witness :
    resolveMods impAllOk (.ok false) [fc2fanName] = resolveMods impAllOk (.ok false) []
      ∧ resolveMods impAllOk (.ok true) [fc2fanName]
          = (resolveMods impAllOk (.ok true) []).map
              (fun vu => ((webNS ++ fc2fanName) :: vu.1, vu.2))
      ∧ fc2fanGate isd0 cfg0 = .ok (isd0 (("/x").toList)) :=
  ⟨C7_fc2fan_gate.1 impAllOk [], C7_fc2fan_gate.2.1 impAllOk [] (by decide),
   C7_fc2fan_gate.2.2 isd0 cfg0
     [(kRequiredKeys, .vstr (("title").toList)), (kHardworking, .vstr (("yes").toList)),
      (kRemoveActor, .vstr (("no").toList)), (kFc2fanPath, .vstr (("/x").toList))]
     (("/x").toList) (by decide) (by decide)⟩

theorem alookup_aset_self {α : Type} (k : List Char) (v : α) (l : List (List Char × α)) :
    alookup k (aset k v l) = some v := by
  induction l with
  | nil => simp [aset, alookup]
  | cons p rest ih =>
    obtain ⟨k2, v2⟩ := p
    by_cases hk : k2 = k
    · simp [aset, alookup, hk]
    · simp [aset, alookup, hk, ih]

theorem alookup_aset_ne {α : Type} {k k2 : List Char} (h : k2 ≠ k) (v : α)
    (l : List (List Char × α)) : alookup k2 (aset k v l) = alookup k2 l := by
  have hnk : ¬(k = k2) := fun hh => h hh.symm
  induction l with
  | nil => simp [aset, alookup, hnk]
  | cons p rest ih =>
    obtain ⟨k3, v3⟩ := p
    simp only [aset]
    by_cases hk : k3 = k
    · rw [if_pos hk]
      simp only [alookup]
      have hne : ¬(k3 = k2) := fun hh => hnk (hk.symm.trans hh)
      rw [if_neg hne, if_neg hne]
    · rw [if_neg hk]
      simp only [alookup]
      by_cases h32 : k3 = k2
      · rw [if_pos h32, if_pos h32]
      · rw [if_neg h32, if_neg h32, ih]

theorem lookup2_setk_ne (secs : CfgSections) (sec key sec' key' : List Char) (v : CfgValue)
    (h : ¬(sec = sec' ∧ key = key')) :
    lookup2 (setk secs sec key v) sec' key' = lookup2 secs sec' key' := by
  unfold setk lookup2
  cases hs : alookup sec secs with
  | none => rfl
  | some d =>
    by_cases hsec : sec = sec'
    · subst hsec
      rw [alookup_aset_self, hs]
      have hkey : key' ≠ key := fun hh => h ⟨rfl, hh.symm⟩
      simp [alookup_aset_ne hkey]
    · rw [alookup_aset_ne (fun hh => hsec hh.symm)]

theorem lookup2_setk_self (secs : CfgSections) (sec key : List Char) (v : CfgValue)
    (h : (alookup sec secs).isSome) :
    lookup2 (setk secs sec key v) sec key = some v := by
  unfold setk lookup2
  cases hs : alookup sec secs with
  | none => rw [hs] at h; simp at h
  | some d => rw [alookup_aset_self]; simp [alookup_aset_self]

theorem cp_get_section {secs : CfgSections} {sec key : List Char} {s : List Char}
    (h : cp_get secs sec key = .ok s) : (alookup sec secs).isSome := by
  unfold cp_get at h
  cases hs : alookup sec secs with
  | none => rw [hs] at h; exact absurd h (by simp)
  | some d => simp

theorem cp_getboolean_section {secs : CfgSections} {sec key : List Char} {b : Bool}
    (h : cp_getboolean secs sec key = .ok b) : (alookup sec secs).isSome := by
  unfold cp_getboolean at h
  cases hg : cp_get secs sec key with
  | error e =>
    rw [hg] at h
    exact absurd h (by simp [Bind.bind, Except.bind])
  | ok s => exact cp_get_section hg

theorem norm_boolean_go_preserves (fields : List (List Char × List Char))
    (secs secs' : CfgSections) (h : norm_boolean_go fields secs = .ok secs')
    (sec key : List Char) (hnot : ∀ p ∈ fields, p ≠ (sec, key)) :
    lookup2 secs' sec key = lookup2 secs sec key := by
  induction fields generalizing secs with
  | nil =>
    simp only [norm_boolean_go] at h
    exact (Except.ok.inj h) ▸ rfl
  | cons p rest ih =>
    obtain ⟨psec, pkey⟩ := p
    simp only [norm_boolean_go] at h
    cases hb : cp_getboolean secs psec pkey with
    | error e =>
      rw [hb] at h
      exact absurd h (by simp [Bind.bind, Except.bind])
    | ok b =>
      rw [hb] at h
      simp only [Bind.bind, Except.bind] at h
      have hrest := ih _ h (fun q hq => hnot q (List.mem_cons_of_mem _ hq))
      rw [hrest, lookup2_setk_ne]
      intro hh
      exact hnot (psec, pkey) (List.mem_cons_self _ _) (by rw [hh.1, hh.2])

theorem norm_boolean_go_sets (fields : List (List Char × List Char))
    (secs secs' : CfgSections) (h : norm_boolean_go fields secs = .ok secs')
    (hdist : fields.Pairwise (· ≠ ·)) :
    ∀ p ∈ fields, ∃ b, lookup2 secs' p.1 p.2 = some (.vbool b) := by
  induction fields generalizing secs with
  | nil => intro p hp; exact absurd hp (List.not_mem_nil p)
  | cons q rest ih =>
    obtain ⟨qsec, qkey⟩ := q
    simp only [norm_boolean_go] at h
    cases hb : cp_getboolean secs qsec qkey with
    | error e =>
      rw [hb] at h
      exact absurd h (by simp [Bind.bind, Except.bind])
    | ok b =>
      rw [hb] at h
      simp only [Bind.bind, Except.bind] at h
      intro p hp
      rcases List.mem_cons.mp hp with rfl | hp2
      · refine ⟨b, ?_⟩
        have hsec := cp_getboolean_section hb
        have hset := lookup2_setk_self secs qsec qkey (.vbool b) hsec
        have hnot : ∀ r ∈ rest, r ≠ (qsec, qkey) :=
          fun r hr => Ne.symm ((List.pairwise_cons.mp hdist).1 r hr)
        have hpres := norm_boolean_go_preserves rest _ _ h qsec qkey hnot
        show lookup2 secs' qsec qkey = some (.vbool b)
        rw [hpres, hset]
      · exact ih _ h (List.pairwise_cons.mp hdist).2 p hp2

/-- C4: boolean coercion recognizes `yes/true/on/1` as true and
`no/false/off/0` as false, case-insensitively, and raises `ValueError`
on every other token (no silent default); `norm_boolean` converts
exactly the three fields `Crawler.hardworking_mode`,
`Crawler.remove_actor_in_title` and `NFO.add_genre_to_tag` (every other
entry is left unchanged, each of the three becomes a boolean), and an
unrecognized token makes the pass fail. -/
theorem C4_boolean_coercion :
    (∀ s, convert_to_boolean (pyLower s) = convert_to_boolean s)
    ∧ (∀ s, convert_to_boolean s = .ok true ↔
        pyLower s ∈ [(("yes").toList), (("true").toList), (("on").toList), (("1").toList)])
    ∧ (∀ s, convert_to_boolean s = .ok false ↔
        pyLower s ∈ [(("no").toList), (("false").toList), (("off").toList), (("0").toList)])
    ∧ (∀ s, convert_to_boolean s = .error .valueError ↔
        (pyLower s ∉ [(("yes").toList), (("true").toList), (("on").toList), (("1").toList)]
          ∧ pyLower s ∉ [(("no").toList), (("false").toList), (("off").toList), (("0").toList)]))
    ∧ (∀ secs secs', norm_boolean secs = .ok secs' →
        (∀ sec key, (∀ p ∈ boolFields, p ≠ (sec, key)) →
          lookup2 secs' sec key = lookup2 secs sec key)
        ∧ ∀ p ∈ boolFields, ∃ b, lookup2 secs' p.1 p.2 = some (.vbool b))
    ∧ norm_boolean cfgB = .ok cfgBok
    ∧ norm_boolean cfgBbad = .error .valueError := by
  refine ⟨?_, ?_, ?_, ?_, ?_, by decide, by decide⟩
  · intro s
    simp only [convert_to_boolean, pyLower_idem]
  · intro s
    simp only [convert_to_boolean, List.mem_cons, List.not_mem_nil, or_false]
    generalize pyLower s = l
    split_ifs with h1 h2
    · rcases h1 with rfl | rfl | rfl | rfl <;> simp_all
    · rcases h2 with rfl | rfl | rfl | rfl <;> simp_all
    · simp_all
  · intro s
    simp only [convert_to_boolean, List.mem_cons, List.not_mem_nil, or_false]
    generalize pyLower s = l
    split_ifs with h1 h2
    · rcases h1 with rfl | rfl | rfl | rfl <;> simp_all
    · rcases h2 with rfl | rfl | rfl | rfl <;> simp_all
    · simp_all
  · intro s
    simp only [convert_to_boolean, List.mem_cons, List.not_mem_nil, or_false]
    generalize pyLower s = l
    split_ifs with h1 h2
    · rcases h1 with rfl | rfl | rfl | rfl <;> simp_all
    · rcases h2 with rfl | rfl | rfl | rfl <;> simp_all
    · simp_all
  · intro secs secs' h
    exact ⟨fun sec key hnot => norm_boolean_go_preserves boolFields secs secs' h sec key hnot,
           norm_boolean_go_sets boolFields secs secs' h (by decide)⟩

/-- Witness for C4: the unchanged-field and converted-field parts at the
concrete run `cfgB`. -/
theorem C4_boolean_coercion_witness :
    lookup2 cfgBok kCrawler kFc2fanPath = lookup2 cfgB kCrawler kFc2fanPath
      ∧ ∃ b, lookup2 cfgBok kNFO kAddGenre = some (.vbool b) :=
  ⟨(C4_boolean_coercion.2.2.2.2.1 cfgB cfgBok (by decide)).1 kCrawler kFc2fanPath (by decide),
   (C4_boolean_coercion.2.2.2.2.1 cfgB cfgBok (by decide)).2 (kNFO, kAddGenre) (by decide)⟩

/-- C5 counterexample: a value the claim says is kept silently makes
the pass raise.  The ini text `example.com/a%%b` reads through
interpolation as `example.com/a%b`; its sanitization
`http://example.com/a%b` passes the `is_url` shape check, yet
`check_proxy_free_url` raises `ValueError`, because storing the kept
value runs `before_set`, which rejects its bare `%` — refuting "keeps
the result if and only if it passes the URL-shape check … without
raising". -/
theorem C5_sanitization_counterexample :
    is_url (sanitize_url (("example.com/a%b").toList)) = true
      ∧ sanitize_url (("example.com/a%b").toList) = ("http://example.com/a%b").toList
      ∧ check_proxy_free_url cfgPFbad = .error PyErr.valueError := by
  refine ⟨by decide, by decide, by decide⟩

/-- C5 amended: free-proxy sanitization lowercases the entry, prepends
`http://` when the `http` prefix is missing, keeps the result when it
passes the `is_url` shape check and otherwise blanks it to the empty
string, logging nothing; storing a non-empty kept value however runs
the interpolation syntax check (`before_set`), so a kept URL with a
surviving bare `%` raises `ValueError`, while a blanked (empty) value
always stores without raising.  Raw `"example.com"` becomes
`"http://example.com"`, raw `"!!!invalid!!!"` becomes `""`. -/
theorem C5_proxy_free_sanitization :
    (∀ v, sanitize_url v = [] ∨
      (is_url (sanitize_url v) = true ∧ sanitize_url v = addHttp (pyLower v)))
    ∧ (∀ v, is_url (addHttp (pyLower v)) = true →
        sanitize_url v = addHttp (pyLower v))
    ∧ (∀ v, is_url (addHttp (pyLower v)) = false → sanitize_url v = [])
    ∧ (∀ secs site rest url, cp_get secs kProxyFree site = .ok url →
        (sanitize_url url ≠ [] → before_set_ok (sanitize_url url) = false →
          cpfuGo (site :: rest) secs = .error PyErr.valueError)
        ∧ ((sanitize_url url = [] ∨ before_set_ok (sanitize_url url) = true) →
          cpfuGo (site :: rest) secs =
            cpfuGo rest (setk secs kProxyFree (pyLower site)
              (.vstr (sanitize_url url)))))
    ∧ sanitize_url (("example.com").toList) = ("http://example.com").toList
    ∧ sanitize_url (("!!!invalid!!!").toList) = []
    ∧ check_proxy_free_url cfgPF = .ok cfgPFok := by
  refine ⟨?_, ?_, ?_, ?_, by decide, by decide, by decide⟩
  · intro v
    unfold sanitize_url
    by_cases h : is_url (addHttp (pyLower v)) = true
    · rw [if_pos h]
      exact Or.inr ⟨h, rfl⟩
    · rw [if_neg h]
      exact Or.inl rfl
  · intro v h
    unfold sanitize_url
    rw [if_pos h]
  · intro v h
    unfold sanitize_url
    rw [if_neg (by rw [h]; exact Bool.false_ne_true)]
  · intro secs site rest url hurl
    constructor
    · intro hne hbs
      unfold cpfuGo
      rw [hurl]
      simp only [Bind.bind, Except.bind]
      rw [if_pos ⟨hne, hbs⟩]
    · intro hok
      have hcond : ¬(sanitize_url url ≠ [] ∧ before_set_ok (sanitize_url url) = false) := by
        rintro ⟨hne, hbs⟩
        rcases hok with h | h
        · exact hne h
        · rw [h] at hbs
          exact absurd hbs (by decide)
      conv_lhs => unfold cpfuGo
      rw [hurl]
      simp only [Bind.bind, Except.bind]
      rw [if_neg hcond]

/-- Witness for C5 at concrete entries: the raising store and the
silent one. -/
theorem C5_proxy_free_sanitization_witness :
    cpfuGo [(("sitea").toList)] cfgPFbad = .error PyErr.valueError
      ∧ sanitize_url (("EXAMPLE.com").toList) = ("http://example.com").toList
      ∧ sanitize_url (("not a url").toList) = [] :=
  ⟨(C5_proxy_free_sanitization.2.2.2.1 cfgPFbad (("sitea").toList) []
      (("example.com/a%b").toList) (by decide)).1 (by decide) (by decide),
   C5_proxy_free_sanitization.2.1 (("EXAMPLE.com").toList) (by decide),
   C5_proxy_free_sanitization.2.2.1 (("not a url").toList) (by decide)⟩

/-- C6 counterexample: the pipeline is not idempotent.  On the concrete
raw configuration `cfg0` the first `validate` run succeeds, but running
`validate` again on the validated result raises `AttributeError` (the
integer re-coercion interpolates the already-int `Network.retry`, and
an `int` has no `.find`), refuting the claim that a second run does not
crash. -/
theorem C6_counterexample :
    (validate imp0 isd0 cfg0).isOk = true
      ∧ (validate imp0 isd0 cfg0).bind (validate imp0 isd0)
          = .error PyErr.attributeError := by
  constructor
  · decide
  · decide

/-- C6 amended: a second run of the validation pipeline over an
already-validated configuration raises instead of leaving the typed
fields unchanged: as soon as `Network.retry` holds a (non-zero) integer,
the first pass `norm_int` raises `AttributeError` from interpolation,
so `validate` fails. -/
theorem C6_second_run_raises (imp : List Char → ImpRes) (isdirF : List Char → Bool)
    (secs : CfgSections) (d : CfgSection) (n : Int)
    (h1 : alookup kNetwork secs = some d)
    (h2 : alookup kRetry d = some (CfgValue.vint n)) (h3 : n ≠ 0) :
    validate imp isdirF secs = .error PyErr.attributeError := by
  have hget : cp_get secs kNetwork kRetry = .error .attributeError := by
    unfold cp_get
    simp only [show pyLower kRetry = kRetry from by decide, h1, h2, before_get]
    rw [if_neg h3]
  have hint : cp_getint secs kNetwork kRetry = .error .attributeError := by
    unfold cp_getint
    rw [hget]
    rfl
  unfold validate norm_int
  rw [hint]
  rfl

/-- Witness for C6's amended claim at a concrete already-typed config. -/
theorem C6_second_run_raises_witness :
    validate imp0 isd0 [(kNetwork, [(kRetry, CfgValue.vint 3)])]
      = .error PyErr.attributeError :=
  C6_second_run_raises imp0 isd0 [(kNetwork, [(kRetry, CfgValue.vint 3)])]
    [(kRetry, CfgValue.vint 3)] 3 (by decide) (by decide) (by decide)

/-- C8: the standalone URL-shape predicate accepts
`"http://example.com/path?q=1"` and `"https://192.168.0.1:8080"` and
rejects `"not a url"`. -/
theorem C8_is_url_examples :
    is_url (("http://example.com/path?q=1").toList) = true
      ∧ is_url (("https://192.168.0.1:8080").toList) = true
      ∧ is_url (("not a url").toList) = false := by
  refine ⟨by decide, by decide, by decide⟩

/-- C9: attribute access on the `Config` object raises a `KeyError`
carrying the missing section's name when the section is absent, and
returns the section's key mapping when it is present. -/
theorem C9_config_attribute_access :
    (∀ secs name, alookup name secs = none →
      config_getattr secs name = .error (PyErr.keyError name))
    ∧ (∀ secs name d, alookup name secs = some d →
      config_getattr secs name = .ok d) := by
  constructor
  · intro secs name h
    unfold config_getattr
    rw [h]
  · intro secs name d h
    unfold config_getattr
    rw [h]

/-- Witness for C9: a missing and a present section at concrete configs. -/
theorem C9_config_attribute_access_witness :
    config_getattr [] kFile = .error (PyErr.keyError kFile)
      ∧ config_getattr [(kNFO, [])] kNFO = .ok [] :=
  ⟨C9_config_attribute_access.1 [] kFile (by decide),
   C9_config_attribute_access.2 [(kNFO, [])] kNFO [] (by decide)⟩

/-- C10 (implicit): section mappings resolve attribute reads through
`dict.get`, so a key absent from a present section yields `None`
(`none`), not an exception — only missing sections raise. -/
theorem C10_missing_key_yields_none :
    (∀ secs name d key, config_getattr secs name = .ok d →
      alookup key d = none → dotdict_getattr d key = none)
    ∧ dotdict_getattr [(kRetry, CfgValue.vstr (("3").toList))] kTimeout = none := by
  constructor
  · intro secs name d key _ h
    unfold dotdict_getattr
    exact h
  · rfl

/-- Witness for C10 through a present section with a missing key. -/
theorem C10_missing_key_yields_none_witness :
    dotdict_getattr [(kRetry, CfgValue.vstr (("3").toList))] kProxy = none :=
  C10_missing_key_yields_none.1 [(kNetwork, [(kRetry, CfgValue.vstr (("3").toList))])]
    kNetwork [(kRetry, CfgValue.vstr (("3").toList))] kProxy (by decide) (by decide)
